import Mathlib

/-!
# ScanSAfe heuristic scoring engine — verification development

Shallow embedding of the phishing-risk scoring engine of the ScanSAfe
repository: the email analyzer (`analyzeEmail` in
`src/components/EmailScanner.tsx`) and the link analyzer (`analyzeLink`
with its helpers `analyzeDomain`, `analyzeUrlStructure`,
`analyzeContentPatterns`, `generateRecommendations` in the LinkScanner
component).

Strings are modelled as `List Char`.  The JavaScript regular expressions
are translated into executable decidable predicates / scanners over
`List Char`, following the semantics of the concrete regexes appearing in
the source (alternations of literals, `\d+`, word boundaries `\b`,
same-line `.*` gaps, backreference-free existential matching, and the
left-to-right non-overlapping scanning performed by `String.match` with
the `g` flag).  The browser built-ins that the code calls are modelled as
parameters: `new URL(...)` becomes an explicit `parse` function argument
returning `Option UrlObj` (so the `try/catch` of `analyzeLink` becomes a
`match`), and each `Math.random()` draw becomes an explicit argument
(`rNew` for the `> 0.7` gate in `analyzeDomain`, `age` for
`Math.floor(Math.random()*30)`, `red` for the `hasRedirects` draw),
together with the current time `now` in milliseconds for `Date.now()`.
-/

set_option autoImplicit false

/-! ## Character classes (JavaScript regex semantics) -/

/-- ASCII lower-casing, as used for case-insensitive (`/i`) matching of the
ASCII-only pattern literals in the source. -/
def lowerChar (c : Char) : Char :=
  if 'A' ≤ c ∧ c ≤ 'Z' then Char.ofNat (c.toNat + 32) else c

/-- Case-insensitive character comparison (for `/i` regex flags). -/
def eqCI (a b : Char) : Bool := lowerChar a == lowerChar b

def isDigitC (c : Char) : Bool := '0' ≤ c && c ≤ '9'

def isAlphaC (c : Char) : Bool :=
  ('a' ≤ c && c ≤ 'z') || ('A' ≤ c && c ≤ 'Z')

/-- JavaScript `\w` (word character): `[A-Za-z0-9_]`. -/
def isWordChar (c : Char) : Bool := isAlphaC c || isDigitC c || c == '_'

/-- JavaScript `\s` (whitespace) character set. -/
def isWs (c : Char) : Bool :=
  c == ' ' || c == '\t' || c == '\n' || c == '\r' ||
  c == Char.ofNat 11 || c == Char.ofNat 12 ||
  c == Char.ofNat 0xa0 || c == Char.ofNat 0x1680 ||
  (0x2000 ≤ c.toNat && c.toNat ≤ 0x200a) ||
  c == Char.ofNat 0x2028 || c == Char.ofNat 0x2029 ||
  c == Char.ofNat 0x202f || c == Char.ofNat 0x205f ||
  c == Char.ofNat 0x3000 || c == Char.ofNat 0xfeff

/-- JavaScript line terminators, which `.` in a regex does not match. -/
def isLineTerm (c : Char) : Bool :=
  c == '\n' || c == '\r' || c == Char.ofNat 0x2028 || c == Char.ofNat 0x2029

/-- A character matched by `.` in a JavaScript regex (anything but a line
terminator). -/
def isDotChar (c : Char) : Bool := !isLineTerm c

/-! ## Exact and case-insensitive scanning primitives -/

/-- `hasPrefE pat s`: `pat` is literally (case-sensitively) at the start of
`s` (JavaScript `String.startsWith` / anchored literal match). -/
def hasPrefE : List Char → List Char → Bool
  | [], _ => true
  | _ :: _, [] => false
  | p :: ps, c :: cs => p == c && hasPrefE ps cs

/-- `hasPrefCI pat s`: `pat` matches case-insensitively at the start of
`s` (a literal inside a `/.../i` regex, anchored at the current
position). -/
def hasPrefCI : List Char → List Char → Bool
  | [], _ => true
  | _ :: _, [] => false
  | p :: ps, c :: cs => eqCI p c && hasPrefCI ps cs

/-- `occursE pat s`: `pat` occurs (case-sensitively) somewhere in `s`
(JavaScript `String.includes`). -/
def occursE (pat : List Char) : List Char → Bool
  | [] => hasPrefE pat []
  | c :: cs => hasPrefE pat (c :: cs) || occursE pat cs

/-- `occursCI pat s`: `pat` occurs case-insensitively somewhere in `s`
(`.test` of an `/i` regex whose body is the literal `pat`). -/
def occursCI (pat : List Char) : List Char → Bool
  | [] => hasPrefCI pat []
  | c :: cs => hasPrefCI pat (c :: cs) || occursCI pat cs

/-- `.test` of an `/i` regex that is an alternation of the literals
`pats`. -/
def occursAnyCI (pats : List String) (s : List Char) : Bool :=
  pats.any fun p => occursCI p.toList s

/-- JavaScript `String.endsWith` (case-sensitive). -/
def endsList (pat s : List Char) : Bool :=
  hasPrefE pat.reverse s.reverse

/-- JavaScript `String.replace` with a string pattern: replaces only the
first occurrence of `pat` (here by the empty string, as in
`hostname.replace('www.', '')`). -/
def replaceFirst (pat : List Char) : List Char → List Char
  | [] => []
  | c :: cs =>
    if hasPrefE pat (c :: cs) then (c :: cs).drop pat.length
    else c :: replaceFirst pat cs

/-- `domain.split('.').pop()`: the last `.`-separated segment. -/
def lastDotSeg (d : List Char) : List Char :=
  (d.splitOn '.').getLastD []

/-! ## Basic lemmas about the scanning primitives -/

theorem hasPrefE_length {pat s : List Char} (h : hasPrefE pat s = true) :
    pat.length ≤ s.length := by
  induction pat generalizing s with
  | nil => simp
  | cons p ps ih =>
    cases s with
    | nil => simp [hasPrefE] at h
    | cons c cs =>
      simp only [hasPrefE, Bool.and_eq_true] at h
      simpa [List.length_cons, Nat.succ_le_succ_iff] using ih h.2

theorem hasPrefCI_length {pat s : List Char} (h : hasPrefCI pat s = true) :
    pat.length ≤ s.length := by
  induction pat generalizing s with
  | nil => simp
  | cons p ps ih =>
    cases s with
    | nil => simp [hasPrefCI] at h
    | cons c cs =>
      simp only [hasPrefCI, Bool.and_eq_true] at h
      simpa [List.length_cons, Nat.succ_le_succ_iff] using ih h.2

theorem hasPrefE_append {pat s t : List Char} (h : hasPrefE pat s = true) :
    hasPrefE pat (s ++ t) = true := by
  induction pat generalizing s with
  | nil => simp [hasPrefE]
  | cons p ps ih =>
    cases s with
    | nil => simp [hasPrefE] at h
    | cons c cs =>
      simp only [hasPrefE, Bool.and_eq_true] at h ⊢
      exact ⟨h.1, ih h.2⟩

theorem hasPrefCI_append {pat s t : List Char} (h : hasPrefCI pat s = true) :
    hasPrefCI pat (s ++ t) = true := by
  induction pat generalizing s with
  | nil => simp [hasPrefCI]
  | cons p ps ih =>
    cases s with
    | nil => simp [hasPrefCI] at h
    | cons c cs =>
      simp only [hasPrefCI, Bool.and_eq_true] at h ⊢
      exact ⟨h.1, ih h.2⟩

theorem occursCI_nil_pat (s : List Char) : occursCI [] s = true := by
  cases s <;> simp [occursCI, hasPrefCI]

theorem occursCI_append {pat s t : List Char} (h : occursCI pat s = true) :
    occursCI pat (s ++ t) = true := by
  induction s with
  | nil =>
    simp only [occursCI] at h
    cases pat with
    | nil => exact occursCI_nil_pat t
    | cons p ps => simp [hasPrefCI] at h
  | cons c cs ih =>
    simp only [occursCI, Bool.or_eq_true, List.cons_append] at h ⊢
    cases h with
    | inl h => exact Or.inl (by simpa [List.cons_append] using hasPrefCI_append (t := t) h)
    | inr h => exact Or.inr (ih h)

theorem occursAnyCI_append {pats : List String} {s t : List Char}
    (h : occursAnyCI pats s = true) : occursAnyCI pats (s ++ t) = true := by
  simp only [occursAnyCI, List.any_eq_true] at h ⊢
  obtain ⟨p, hp, hocc⟩ := h
  exact ⟨p, hp, occursCI_append hocc⟩

theorem drop_append_of_le {s t : List Char} {n : Nat} (h : n ≤ s.length) :
    (s ++ t).drop n = s.drop n ++ t := by
  induction s generalizing n with
  | nil =>
    have : n = 0 := Nat.le_zero.mp h
    simp [this]
  | cons c cs ih =>
    cases n with
    | zero => simp
    | succ m =>
      simp only [List.cons_append, List.drop_succ_cons]
      exact ih (Nat.succ_le_succ_iff.mp h)

/-! ## Email pattern library (`suspiciousPatterns` in `analyzeEmail`)

Each of the ten entries of `suspiciousPatterns` is a `(pattern, message,
score)` triple whose `pattern.test(content)` is translated to a decidable
predicate below, in source order. -/

/-- The apostrophe character (U+0027). -/
def apos : Char := Char.ofNat 39

/-- Literal alternative `you've won` of the prize/lottery pattern. -/
def youveWon : List Char := "you".toList ++ apos :: "ve won".toList

/-- After at least one digit of `\d+`, either the literal `" hours"`
follows or another digit continues the run (existential over the
digit-run split, as regex backtracking allows). -/
def digitsHoursTail : List Char → Bool
  | [] => false
  | c :: rest =>
    hasPrefCI " hours".toList (c :: rest) ||
    (isDigitC c && digitsHoursTail rest)

/-- Tail of `/within \d+ hours/`: one or more digits followed by the
literal `" hours"`. -/
def digitsHours : List Char → Bool
  | [] => false
  | c :: rest => isDigitC c && digitsHoursTail rest

/-- `.test` of `/within \d+ hours/i` — scan every suffix for
`"within "` followed by digits and `" hours"`. -/
def withinHoursTest : List Char → Bool
  | [] => false
  | c :: cs =>
    (hasPrefCI "within ".toList (c :: cs) && digitsHours ((c :: cs).drop 7)) ||
    withinHoursTest cs

/-- Pattern 1: `/urgent|immediate|act now|limited time|action required|within \d+ hours/i`. -/
def urgencyTest (s : List Char) : Bool :=
  occursAnyCI ["urgent", "immediate", "act now", "limited time", "action required"] s ||
  withinHoursTest s

/-- Pattern 2: `/click here|verify (account|identity)|secure (account|access)|login now|update now/i`. -/
def ctaTest (s : List Char) : Bool :=
  occursAnyCI ["click here", "verify account", "verify identity",
    "secure account", "secure access", "login now", "update now"] s

/-- Pattern 3: `/congratulations|you('ve| have) won|lottery|prize|reward/i`. -/
def prizeTest (s : List Char) : Bool :=
  occursAnyCI ["congratulations", "you have won", "lottery", "prize", "reward"] s ||
  occursCI youveWon s

/-- Pattern 4: `/suspended|compromised|violation|security alert|unusual activity/i`. -/
def threatTest (s : List Char) : Bool :=
  occursAnyCI ["suspended", "compromised", "violation", "security alert",
    "unusual activity"] s

/-- Pattern 5: `/bitcoin|cryptocurrency|investment opportunity|payment required/i`. -/
def financeTest (s : List Char) : Bool :=
  occursAnyCI ["bitcoin", "cryptocurrency", "investment opportunity",
    "payment required"] s

/-- Pattern 6: `/dear (customer|user|valued (member|client))|hello friend/i`. -/
def greetingTest (s : List Char) : Bool :=
  occursAnyCI ["dear customer", "dear user", "dear valued member",
    "dear valued client", "hello friend"] s

/-- `a` followed, within the same line (`.*` does not cross line
terminators), by an occurrence of `b`: used for pattern 7. -/
def sameLineFind (b : List Char) : List Char → Bool
  | [] => false
  | c :: rest =>
    hasPrefCI b (c :: rest) || (isDotChar c && sameLineFind b rest)

/-- One alternative `a.*b` of pattern 7, scanned over every suffix. -/
def atThenSameLine (a b : List Char) : List Char → Bool
  | [] => false
  | c :: cs =>
    (hasPrefCI a (c :: cs) && sameLineFind b ((c :: cs).drop a.length)) ||
    atThenSameLine a b cs

/-- Pattern 7: `/support@.*fake\.com|noreply@.*suspect\.org/i`. -/
def senderTest (s : List Char) : Bool :=
  atThenSameLine "support@".toList "fake.com".toList s ||
  atThenSameLine "noreply@".toList "suspect.org".toList s

/-- Anchored part of pattern 8 after `scansafe-`: `[a-z]+\.com\b` — the
letter run is forced maximal because `.` is not a letter. -/
def spoofTail (q : List Char) : Bool :=
  let r := q.takeWhile isAlphaC
  !r.isEmpty && hasPrefCI ".com".toList (q.drop r.length) &&
    (match q.drop (r.length + 4) with
     | [] => true
     | d :: _ => !isWordChar d)

/-- Anchored match of pattern 8 at the current position:
`(?!scansafe\.com)\bscansafe-[a-z]+\.com\b` (the leading `\b` is handled
by the caller's previous-character flag). -/
def spoofAt (s : List Char) : Bool :=
  !hasPrefCI "scansafe.com".toList s &&
  hasPrefCI "scansafe-".toList s &&
  spoofTail (s.drop 9)

/-- Pattern 8 scan with a word-boundary flag for the previous character. -/
def spoofAux (prevW : Bool) : List Char → Bool
  | [] => false
  | c :: cs =>
    (!prevW && spoofAt (c :: cs)) || spoofAux (isWordChar c) cs

/-- Pattern 8: `/(?!scansafe\.com)\bscansafe-[a-z]+\.com\b/i`. -/
def spoofTest (s : List Char) : Bool := spoofAux false s

/-- Consume exactly `k` digits then a literal `'.'`. -/
def dkdot : Nat → List Char → Option (List Char)
  | 0, '.' :: r => some r
  | 0, _ => none
  | k + 1, c :: r => if isDigitC c then dkdot k r else none
  | _ + 1, [] => none

/-- Consume exactly `k` digits. -/
def dkRun : Nat → List Char → Option (List Char)
  | 0, s => some s
  | k + 1, c :: r => if isDigitC c then dkRun k r else none
  | _ + 1, [] => none

/-- The three `digits-dot` groups `(?:[0-9]{1,3}\.){3}` consumed in
sequence. -/
def ipChain (k1 k2 k3 : Nat) (s : List Char) : Option (List Char) :=
  match dkdot k1 s with
  | none => none
  | some r1 =>
    match dkdot k2 r1 with
    | none => none
    | some r2 => dkdot k3 r2

/-- Anchored match of `(?:[0-9]{1,3}\.){3}[0-9]{1,3}` at the current
position (pattern 9; existential over the 1–3 digit choices, as
backtracking allows; the final group needs only one digit since there is
no trailing boundary). -/
def ipAtE (s : List Char) : Bool :=
  [1, 2, 3].any fun k1 => [1, 2, 3].any fun k2 => [1, 2, 3].any fun k3 =>
    match ipChain k1 k2 k3 s with
    | some (d :: _) => isDigitC d
    | _ => false

/-- Pattern 9: `/(?:[0-9]{1,3}\.){3}[0-9]{1,3}/` (case flag irrelevant). -/
def ipTextTest : List Char → Bool
  | [] => false
  | c :: cs => ipAtE (c :: cs) || ipTextTest cs

/-- Pattern 10: `.test` of
`/(?:https?:\/\/)?(?:www\.)?([^\/\s]+)\/[^\s]*\/i` — since both prefixes
are optional and the tail may be empty, a match exists exactly when some
non-slash non-whitespace character is immediately followed by `'/'`. -/
def urlShapeTest : List Char → Bool
  | a :: b :: rest => (!isWs a && a != '/' && b == '/') || urlShapeTest (b :: rest)
  | _ => false

/-! ## Email analyzer data model -/

/-- The three risk tiers. -/
inductive Risk
  | safe
  | suspicious
  | dangerous
deriving DecidableEq, Repr

/-- Indicator messages pushed by `analyzeEmail`, one constructor per
distinct `indicators.push(...)` in the source, carrying the data that is
interpolated into the message string:
* `links n` — `"Contains n link(s) - always verify before clicking"`;
* `suspDomains urls` — `"Suspicious domains detected: ..."` listing the
  matched URL strings;
* `hiddenLink text url` — `"Hidden link detected: ..."` ;
* `urgency` … `urlMismatch` — the ten fixed pattern-library messages, in
  source order (`"Urgency tactics detected"`, `"Suspicious call-to-action
  phrases"`, `"Prize/lottery scam indicators"`, `"Account threat
  language"`, `"Financial scam keywords"`, `"Generic/impersonal
  greeting"`, `"Suspicious sender email"`, `"Spoofed domain detected"`,
  `"IP address mentioned in email"`, `"URL with potential domain
  mismatch"`);
* `grammar n` — `"Grammar/spelling errors detected (n instances)"`;
* `replyMismatch` — `"Sender and Reply-To address mismatch"`. -/
inductive EmailIndicator
  | links (n : Nat)
  | suspDomains (urls : List (List Char))
  | hiddenLink (text url : List Char)
  | urgency
  | callToAction
  | prizeScam
  | accountThreat
  | financialScam
  | genericGreeting
  | suspiciousSender
  | spoofedDomain
  | ipMentioned
  | urlMismatch
  | grammar (n : Nat)
  | replyMismatch
deriving DecidableEq, Repr

/-- One entry of the `suspiciousPatterns` table: `test` for
`pattern.test`, `ind` for the message, `weight` for the score. -/
structure PatEntry where
  test : List Char → Bool
  ind : EmailIndicator
  weight : Nat

/-- The ten `suspiciousPatterns` entries, in source order with the source
weights 25, 30, 20, 25, 20, 15, 40, 50, 20, 30. -/
def emailPatternLib : List PatEntry :=
  [⟨urgencyTest, .urgency, 25⟩,
   ⟨ctaTest, .callToAction, 30⟩,
   ⟨prizeTest, .prizeScam, 20⟩,
   ⟨threatTest, .accountThreat, 25⟩,
   ⟨financeTest, .financialScam, 20⟩,
   ⟨greetingTest, .genericGreeting, 15⟩,
   ⟨senderTest, .suspiciousSender, 40⟩,
   ⟨spoofTest, .spoofedDomain, 50⟩,
   ⟨ipTextTest, .ipMentioned, 20⟩,
   ⟨urlShapeTest, .urlMismatch, 30⟩]

/-- `suspiciousPatterns.forEach`: accumulate, in order, one indicator and
the entry's weight for every matching pattern. -/
def patFold (l : List PatEntry) (c : List Char) : List EmailIndicator × Nat :=
  match l with
  | [] => ([], 0)
  | e :: es =>
    let r := patFold es c
    if e.test c then (e.ind :: r.1, e.weight + r.2) else r

/-! ## URL extraction (`urlPattern` match with the `g` flag) -/

/-- A character admitted by `[^\/\s]` (the domain part of `urlPattern`). -/
def nonSlashWs (c : Char) : Bool := !isWs c && c != '/'

/-- Attempt the mandatory core `([^\/\s]+)\/[^\s]*` of `urlPattern` after
skipping `preLen` characters of optional prefix; returns the total match
length (prefix + domain + slash + greedy non-whitespace tail). -/
def tryCore (preLen : Nat) (s : List Char) : Option Nat :=
  if ((s.drop preLen).takeWhile nonSlashWs).isEmpty then none
  else
    match (s.drop preLen).drop ((s.drop preLen).takeWhile nonSlashWs).length with
    | '/' :: r2 =>
      some (preLen + ((s.drop preLen).takeWhile nonSlashWs).length + 1 +
        (r2.takeWhile (fun c => !isWs c)).length)
    | _ => none

/-- Attempt the optional `(?:www\.)?` prefix greedily (with it first, then
without), starting after `n` characters of scheme prefix. -/
def tryWww (n : Nat) (s : List Char) : Option Nat :=
  (if hasPrefCI "www.".toList (s.drop n) then tryCore (n + 4) s else none).orElse
    fun _ => tryCore n s

/-- Anchored match of
`/(?:https?:\/\/)?(?:www\.)?([^\/\s]+)\/[^\s]*\/gi` at the start of `s`,
trying the optional scheme greedily (`https://`, then `http://`, then
none), returning the match length. -/
def matchUrlAt (s : List Char) : Option Nat :=
  (if hasPrefCI "https://".toList s then tryWww 8 s else none).orElse fun _ =>
    (if hasPrefCI "http://".toList s then tryWww 7 s else none).orElse fun _ =>
      tryWww 0 s

/-- Left-to-right non-overlapping scan of `content.match(urlPattern)`,
collecting the matched substrings; `fuel` bounds the recursion and is
instantiated with more steps than characters. -/
def urlScanAux : Nat → List Char → List (List Char)
  | 0, _ => []
  | _ + 1, [] => []
  | fuel + 1, c :: cs =>
    match matchUrlAt (c :: cs) with
    | some len => (c :: cs).take len :: urlScanAux fuel ((c :: cs).drop len)
    | none => urlScanAux fuel cs

/-- `content.match(urlPattern) || []`: the list of URL-shaped substrings. -/
def urlScan (s : List Char) : List (List Char) := urlScanAux (s.length + 1) s

/-- Anchored domain extraction used on each matched URL string:
`(?:https?:\/\/)?(?:www\.)?([^\/\s]+)` — like the scanner but without the
mandatory `/`, returning the captured domain group. -/
def tryDomCore (preLen : Nat) (s : List Char) : Option (List Char) :=
  let run := (s.drop preLen).takeWhile nonSlashWs
  if run.isEmpty then none else some run

def tryDomWww (n : Nat) (s : List Char) : Option (List Char) :=
  (if hasPrefCI "www.".toList (s.drop n) then tryDomCore (n + 4) s else none).orElse
    fun _ => tryDomCore n s

def domAt (s : List Char) : Option (List Char) :=
  (if hasPrefCI "https://".toList s then tryDomWww 8 s else none).orElse fun _ =>
    (if hasPrefCI "http://".toList s then tryDomWww 7 s else none).orElse fun _ =>
      tryDomWww 0 s

/-- `url.match(/(?:https?:\/\/)?(?:www\.)?([^\/\s]+)/i)?.[1]`: first
position (left to right) where the domain regex matches, returning the
captured group. -/
def domainOf : List Char → Option (List Char)
  | [] => none
  | c :: cs => (domAt (c :: cs)).orElse fun _ => domainOf cs

/-- The filter of `suspiciousDomains`: the extracted domain exists and
does not match the allow-list regex `/scansafe\.com|trusteddomain\.org/i`. -/
def suspiciousUrl (u : List Char) : Bool :=
  match domainOf u with
  | some d => !(occursCI "scansafe.com".toList d || occursCI "trusteddomain.org".toList d)
  | none => false

/-! ## Hidden-link detection (`hiddenLinkPattern` with `matchAll`)

The regex is
`/\[([^\]]+)\]\((https?:\/\/[^\s]+)\)|<a\s+(?:[^>]*?\s+)?href=(["'])(.*?)\1[^>]*>(.*?)<\/a>/gi`.
Note that the backreference is `\1` (the markdown text group), which is
unset in the anchor alternative and therefore matches the empty string in
JavaScript; combined with the lazy `(.*?)` for the href value followed by
`[^>]*>`, the captured href (`link[4]`) is always the empty string, so
anchor matches are consumed by the scan but never satisfy the
`url && displayText && !displayText.includes(url)` guard. -/

/-- Index of the last `')'` in `run` (the greedy backtrack point of
`[^\s]+\)`), if any. -/
def lastParenIdx (run : List Char) : Option Nat :=
  ((List.range run.length).filter fun k => run.get? k == some ')').getLast?

/-- Scheme of the markdown URL group: `https?:\/\/`, case-insensitively,
greedy on the optional `s`; returns its length. -/
def matchScheme (s : List Char) : Option Nat :=
  if hasPrefCI "https://".toList s then some 8
  else if hasPrefCI "http://".toList s then some 7
  else none

/-- Anchored match of the markdown alternative
`\[([^\]]+)\]\((https?:\/\/[^\s]+)\)` at the start of `s`, returning
(consumed length, display text, captured URL). -/
def mdAt (s : List Char) : Option (Nat × List Char × List Char) :=
  match s with
  | '[' :: r1 =>
    let text := r1.takeWhile (fun c => c != ']')
    if text.isEmpty then none
    else
      match r1.drop text.length with
      | ']' :: '(' :: r2 =>
        (matchScheme r2).bind fun schemeLen =>
          let run := (r2.drop schemeLen).takeWhile (fun c => !isWs c)
          (lastParenIdx run).bind fun k =>
            if 1 ≤ k then
              some (1 + text.length + 2 + schemeLen + k + 1,
                    text, r2.take schemeLen ++ run.take k)
            else none
      | _ => none
  | _ => none

/-- Scan for `href=` (case-insensitively) preceded by a whitespace
character, inside the attribute region (fails on `'>'`); returns the
remainder after `href=`. -/
def scanHref : Bool → List Char → Option (List Char)
  | prevWs, s =>
    if prevWs && hasPrefCI "href=".toList s then some (s.drop 5)
    else
      match s with
      | [] => none
      | c :: cs => if c == '>' then none else scanHref (isWs c) cs

/-- First occurrence of `</a>` (case-insensitive) reachable without
crossing a line terminator (the lazy `(.*?)` of the anchor text); returns
(anchor text, remainder after `</a>`). -/
def scanClose : List Char → Option (List Char × List Char)
  | [] => none
  | c :: cs =>
    if hasPrefCI "</a>".toList (c :: cs) then some ([], (c :: cs).drop 4)
    else if isLineTerm c then none
    else (scanClose cs).map fun p => (c :: p.1, p.2)

/-- Anchored match of the anchor alternative
`<a\s+(?:[^>]*?\s+)?href=(["'])(.*?)\1[^>]*>(.*?)<\/a>` at the start of
`s`, returning (anchor text, remainder after the match).  The captured
href value is always empty (see the section comment), so only the anchor
text and the consumed extent matter. -/
def anchorAt (s : List Char) : Option (List Char × List Char) :=
  match s with
  | '<' :: a :: r1 =>
    if eqCI a 'a' then
      match r1 with
      | c :: _ =>
        if isWs c then
          (scanHref false r1).bind fun afterHref =>
            match afterHref with
            | q :: r2 =>
              if q == '"' || q == apos then
                let t1 := r2.takeWhile (fun d => d != '>')
                match r2.drop t1.length with
                | '>' :: r3 => scanClose r3
                | _ => none
              else none
            | [] => none
        else none
      | [] => none
    else none
  | _ => none

/-- One `matchAll` step at the current position: a markdown match wins
(alternation order), else an anchor match (whose pair has an empty URL),
else no match here. -/
def hiddenLinkScanAux : Nat → List Char → List (List Char × List Char)
  | 0, _ => []
  | _ + 1, [] => []
  | fuel + 1, c :: cs =>
    match mdAt (c :: cs) with
    | some (len, text, url) => (text, url) :: hiddenLinkScanAux fuel ((c :: cs).drop len)
    | none =>
      match anchorAt (c :: cs) with
      | some (text, rest) => (text, []) :: hiddenLinkScanAux fuel rest
      | none => hiddenLinkScanAux fuel cs

/-- `[...content.matchAll(hiddenLinkPattern)]` as (displayText, url)
pairs. -/
def hiddenLinkScan (s : List Char) : List (List Char × List Char) :=
  hiddenLinkScanAux (s.length + 1) s

/-! ## Grammar/spelling check -/

/-- The fixed `commonMisspellings` list. -/
def commonMisspellings : List String :=
  ["recieve", "occured", "seperate", "definately", "accomodate",
   "wich", "teh", "adress", "allready", "untill"]

/-- A misspelling match at the current position: some listed word matches
case-insensitively here and is followed by a word boundary (the leading
boundary is the caller's flag). -/
def misspellAt (s : List Char) : Bool :=
  commonMisspellings.any fun w =>
    hasPrefCI w.toList s &&
      (match s.drop w.toList.length with
       | [] => true
       | d :: _ => !isWordChar d)

/-- Count of `content.match(grammarPattern)` matches
(`/\b(...)\b/gi`): every position preceded by a non-word character (or
the start) where a listed word matches with a closing boundary.  No match
can begin inside another (all word characters), so this equals the
non-overlapping `g`-scan count. -/
def grammarAux (prevW : Bool) : List Char → Nat
  | [] => 0
  | c :: cs =>
    (if !prevW && misspellAt (c :: cs) then 1 else 0) + grammarAux (isWordChar c) cs

def countGrammar (s : List Char) : Nat := grammarAux false s

/-! ## Sender / Reply-To mismatch

`/From:.*@([^\s]+).*Reply-To:.*@(?!\1)[^\s]+/i` — all of `From:`, the
first `@`, the captured domain, `Reply-To:`, and the second `@` must lie
on one line (`.` does not cross line terminators); the backreference
lookahead under `/i` compares case-insensitively; the capture group
`[^\s]+` may backtrack to any nonempty prefix of the non-whitespace
run. -/

/-- After the second `@`: the lookahead `(?!\1)` rejects the captured
group `g` as a prefix, and `[^\s]+` needs one non-whitespace character. -/
def rmFinal (g : List Char) (y : List Char) : Bool :=
  !hasPrefCI g y &&
    (match y with
     | d :: _ => !isWs d
     | [] => false)

/-- Scan `.*@` then apply `k`: either match `@` here or consume a
`.`-matchable character. -/
def rmAtScan (k : List Char → Bool) : List Char → Bool
  | [] => false
  | c :: cs => (c == '@' && k cs) || (isDotChar c && rmAtScan k cs)

/-- Scan `.*Reply-To:` then apply `k` to the remainder. -/
def rmReplyScan (k : List Char → Bool) : List Char → Bool
  | [] => false
  | c :: cs =>
    (hasPrefCI "Reply-To:".toList (c :: cs) && k ((c :: cs).drop 9)) ||
    (isDotChar c && rmReplyScan k cs)

/-- After the first `@`: choose a nonempty prefix `g` of the
non-whitespace run as the capture, then `.*Reply-To:.*@(?!\1)[^\s]+`. -/
def rmAfterAt (v : List Char) : Bool :=
  let run := v.takeWhile (fun c => !isWs c)
  (List.range run.length).any fun k =>
    let g := run.take (k + 1)
    rmReplyScan (rmAtScan (rmFinal g)) (v.drop (k + 1))

/-- Scan every suffix for `From:` and the rest of the pattern. -/
def rmScan : List Char → Bool
  | [] => false
  | c :: cs =>
    (hasPrefCI "From:".toList (c :: cs) && rmAtScan rmAfterAt ((c :: cs).drop 5)) ||
    rmScan cs

/-- `senderReplyMismatch`: `.test` of the combined From/Reply-To regex. -/
def senderReplyMismatch (s : List Char) : Bool := rmScan s

/-! ## `analyzeEmail` -/

/-- The result object of `analyzeEmail`. -/
structure EmailScanResult where
  riskLevel : Risk
  score : Nat
  indicators : List EmailIndicator
  recommendations : List String
deriving DecidableEq, Repr

/-- URL-analysis step of `analyzeEmail`: link-count indicator with
`urls.length * 15`, plus the suspicious-domain indicator with
`suspiciousDomains.length * 25`. -/
def emailUrlBlock (c : List Char) : List EmailIndicator × Nat :=
  let urls := urlScan c
  if 0 < urls.length then
    let susp := urls.filter suspiciousUrl
    if 0 < susp.length then
      ([.links urls.length, .suspDomains susp], urls.length * 15 + susp.length * 25)
    else
      ([.links urls.length], urls.length * 15)
  else ([], 0)

/-- Hidden-link step: one indicator and `+35` for every match whose URL
and display text are nonempty and whose display text does not contain the
URL (`includes` is case-sensitive). -/
def emailHiddenBlock (c : List Char) : List EmailIndicator × Nat :=
  let hid := (hiddenLinkScan c).filter fun p =>
    !p.2.isEmpty && !p.1.isEmpty && !occursE p.2 p.1
  (hid.map fun p => .hiddenLink p.1 p.2, 35 * hid.length)

/-- Pattern-library step. -/
def emailPatternBlock (c : List Char) : List EmailIndicator × Nat :=
  patFold emailPatternLib c

/-- Grammar/spelling step: one combined indicator and `+10` per
instance. -/
def emailGrammarBlock (c : List Char) : List EmailIndicator × Nat :=
  let n := countGrammar c
  if 0 < n then ([.grammar n], 10 * n) else ([], 0)

/-- Sender-analysis step: `+30` on a From/Reply-To mismatch. -/
def emailSenderBlock (c : List Char) : List EmailIndicator × Nat :=
  if senderReplyMismatch c then ([.replyMismatch], 30) else ([], 0)

/-- The accumulated (unclamped) score of `analyzeEmail`. -/
def emailRawScore (c : List Char) : Nat :=
  (emailUrlBlock c).2 + (emailHiddenBlock c).2 + (emailPatternBlock c).2 +
    (emailGrammarBlock c).2 + (emailSenderBlock c).2

/-- The four fixed recommendations of the dangerous email tier. -/
def emailDangerRecs : List String :=
  ["Do not click any links or download attachments",
   "Report this email as phishing to your email provider",
   "Delete this email immediately",
   "If concerned about your account, visit the official website directly"]

/-- The four fixed recommendations of the suspicious email tier. -/
def emailSuspRecs : List String :=
  ["Exercise extreme caution with this email",
   "Verify sender identity through official channels",
   "Hover over links to check destinations before clicking",
   "Contact the organization directly using known contact information"]

/-- The three fixed recommendations of the safe email tier. -/
def emailSafeRecs : List String :=
  ["Email appears legitimate but remain vigilant",
   "Always verify unexpected requests for information",
   "Keep your security software updated"]

/-- `analyzeEmail(content)`: run all five detector groups in source
order, classify on the accumulated score (`>= 75` dangerous, `>= 40`
suspicious, else safe) and clamp the reported score with
`Math.min(score, 100)`. -/
def analyzeEmail (content : List Char) : EmailScanResult :=
  let indicators :=
    (emailUrlBlock content).1 ++ (emailHiddenBlock content).1 ++
    (emailPatternBlock content).1 ++ (emailGrammarBlock content).1 ++
    (emailSenderBlock content).1
  let score := emailRawScore content
  let tier : Risk × List String :=
    if 75 ≤ score then (.dangerous, emailDangerRecs)
    else if 40 ≤ score then (.suspicious, emailSuspRecs)
    else (.safe, emailSafeRecs)
  { riskLevel := tier.1, score := min score 100,
    indicators := indicators, recommendations := tier.2 }

/-! ## Link analyzer data model -/

/-- Indicator severities of the link analyzer. -/
inductive Severity
  | low
  | medium
  | high
deriving DecidableEq, Repr

/-- Indicators pushed by the link analyzer, one constructor per distinct
push in the source, carrying interpolated data:
* `suspTLD tld` — `"Suspicious top-level domain (tld)"` (domain, high);
* `newDomain` — `"Newly registered domain (less than 30 days old)"`
  (domain, medium);
* `atSymbol` — `"URL contains @ symbol (possible credential embedding)"`
  (url, high);
* `ipAddress` — `"URL uses direct IP address instead of domain name"`
  (url, medium);
* `subdomains n` — `"Excessive subdomains (n)"` (url, medium);
* `kwLogin`/`kwBank`/`kwUpdate`/`kwAccount` — `"Suspicious keyword in
  URL: ..."` for the four keyword groups (content, medium/high/medium/low);
* `insecure` — `"Connection is not secure (HTTP instead of HTTPS)"`
  (security, high);
* `invalidUrl` — `"Invalid URL format"` (url, high). -/
inductive LinkIndicator
  | suspTLD (tld : List Char)
  | newDomain
  | atSymbol
  | ipAddress
  | subdomains (n : Int)
  | kwLogin
  | kwBank
  | kwUpdate
  | kwAccount
  | insecure
  | invalidUrl
deriving DecidableEq, Repr

/-- The severity attached to each pushed indicator in the source. -/
def sevOf : LinkIndicator → Severity
  | .suspTLD _ => .high
  | .newDomain => .medium
  | .atSymbol => .high
  | .ipAddress => .medium
  | .subdomains _ => .medium
  | .kwLogin => .medium
  | .kwBank => .high
  | .kwUpdate => .medium
  | .kwAccount => .low
  | .insecure => .high
  | .invalidUrl => .high

/-- The `reduce` severity-to-score mapping: high 30, medium 20, low 10. -/
def sevScore : Severity → Nat
  | .high => 30
  | .medium => 20
  | .low => 10

/-- Sum of severity scores over an indicator list (the `reduce` in
`analyzeLink`). -/
def indScoreSum (l : List LinkIndicator) : Nat :=
  (l.map fun i => sevScore (sevOf i)).sum

/-- The parsed-URL object: the two fields of the browser `URL` value that
`analyzeLink` reads (`protocol` like `"https:"`, and `hostname`). -/
structure UrlObj where
  protocol : List Char
  hostname : List Char
deriving DecidableEq, Repr

/-- `technicalDetails` of a link scan result.  `creationDate` is the
millisecond timestamp of the midnight-UTC date string produced by
`toISOString().split('T')[0]`. -/
structure TechnicalDetails where
  domain : List Char
  registrar : String
  creationDate : Option Int
  isHttps : Bool
  hasRedirects : Bool
  finalUrl : List Char
  reputation : String
  blacklistStatus : List String
deriving DecidableEq, Repr

/-- The result object of `analyzeLink`. -/
structure LinkScanResult where
  url : List Char
  riskLevel : Risk
  score : Nat
  indicators : List LinkIndicator
  recommendations : List String
  technicalDetails : TechnicalDetails
deriving DecidableEq, Repr

/-! ## Link analyzer helpers -/

/-- One day in milliseconds. -/
def dayMs : Int := 86400000

/-- Truncation of a millisecond timestamp to its midnight-UTC date (the
composition `toISOString().split('T')[0]` then `new Date(...)`). -/
def isoDayStart (t : Int) : Int := dayMs * Int.fdiv t dayMs

/-- The suspicious TLD list of `analyzeDomain`. -/
def suspiciousTLDs : List String := [".tk", ".ml", ".ga", ".cf", ".gq", ".xyz"]

/-- Result record of `analyzeDomain`. -/
structure DomainAnalysis where
  isSuspicious : Bool
  indicators : List LinkIndicator
  registrar : String
  creationDate : Option Int
deriving DecidableEq, Repr

/-- `analyzeDomain(domain)`: suspicious-TLD suffix check, then the
simulated newly-registered check — the `Math.random() > 0.7` gate is the
argument `rNew` and `Math.floor(Math.random() * 30)` is `age`; when the
gate fires, the synthetic creation date is the midnight truncation of
`now - age` days, and the indicator fires when that date is newer than 30
days before `now`. -/
def analyzeDomain (domain : List Char) (now : Int) (age : Nat) (rNew : Bool) :
    DomainAnalysis :=
  let tldHit := suspiciousTLDs.any fun tld => endsList tld.toList domain
  let inds1 : List LinkIndicator :=
    if tldHit then [.suspTLD (lastDotSeg domain)] else []
  let cd : Option Int :=
    if rNew then some (isoDayStart (now - (age : Int) * dayMs)) else none
  let newHit :=
    match cd with
    | some ts => decide (now - 30 * dayMs < ts)
    | none => false
  { isSuspicious := tldHit,
    indicators := inds1 ++ (if newHit then [.newDomain] else []),
    registrar := "Unknown",
    creationDate := cd }

/-- Anchored match of the link IP regex tail after the three
`digits-dot` groups: one to three digits followed by a word boundary. -/
def ipEndB (r : List Char) : Bool :=
  [1, 2, 3].any fun k4 =>
    match dkRun k4 r with
    | some [] => true
    | some (d :: _) => !isWordChar d
    | none => false

/-- Anchored match of `\b(?:\d{1,3}\.){3}\d{1,3}\b` at the current
position (the opening boundary is the caller's flag). -/
def ipAtB (s : List Char) : Bool :=
  [1, 2, 3].any fun k1 => [1, 2, 3].any fun k2 => [1, 2, 3].any fun k3 =>
    match ipChain k1 k2 k3 s with
    | some r => ipEndB r
    | none => false

/-- Scan for the word-boundary IP pattern of `analyzeUrlStructure`. -/
def ipLinkAux (prevW : Bool) : List Char → Bool
  | [] => false
  | c :: cs => (!prevW && ipAtB (c :: cs)) || ipLinkAux (isWordChar c) cs

/-- `.test` of `/\b(?:\d{1,3}\.){3}\d{1,3}\b/` on the raw URL. -/
def ipLinkTest (s : List Char) : Bool := ipLinkAux false s

/-- `analyzeUrlStructure(url)`: `@` check (high), word-boundary IP check
(medium), subdomain count `url.split('.').length - 2 > 3` (medium, with
the count in the message). -/
def analyzeUrlStructure (url : List Char) : List LinkIndicator :=
  (if url.contains '@' then [.atSymbol] else []) ++
  (if ipLinkTest url then [.ipAddress] else []) ++
  (let n : Int := (url.count '.' : Int) + 1 - 2
   if 3 < n then [.subdomains n] else [])

/-- `analyzeContentPatterns(url)`: the four keyword groups, each an
independent case-insensitive alternation test. -/
def analyzeContentPatterns (url : List Char) : List LinkIndicator :=
  (if occursAnyCI ["login", "signin", "auth"] url then [.kwLogin] else []) ++
  (if occursAnyCI ["bank", "paypal", "amazon", "ebay"] url then [.kwBank] else []) ++
  (if occursAnyCI ["update", "verify", "security"] url then [.kwUpdate] else []) ++
  (if occursAnyCI ["account", "profile", "settings"] url then [.kwAccount] else [])

/-- `generateRecommendations(riskLevel)`: tier-specific list plus the two
base recommendations. -/
def generateRecommendations (riskLevel : Risk) : List String :=
  let base := ["Always verify links before clicking",
               "Use a password manager to avoid phishing sites"]
  match riskLevel with
  | .dangerous =>
    ["Do not visit this link",
     "Report this link to your security team",
     "Block this domain in your security software"] ++ base
  | .suspicious =>
    ["Exercise extreme caution with this link",
     "Verify the destination URL carefully",
     "Consider using a sandbox environment"] ++ base
  | .safe =>
    ["Link appears safe but remain vigilant"] ++ base

/-! ## `analyzeLink` -/

/-- Normalization before parsing:
`inputUrl.startsWith('http') ? inputUrl : 'https://' + inputUrl`
(`startsWith` is case-sensitive). -/
def normalizeUrl (inputUrl : List Char) : List Char :=
  if hasPrefE "http".toList inputUrl then inputUrl
  else "https://".toList ++ inputUrl

/-- The indicator list accumulated before the HTTPS check: domain
analysis, URL-structure analysis, content analysis, in source order. -/
def linkIndicatorsPre (inputUrl domain : List Char) (now : Int) (age : Nat)
    (rNew : Bool) : List LinkIndicator :=
  (analyzeDomain domain now age rNew).indicators ++
  analyzeUrlStructure inputUrl ++ analyzeContentPatterns inputUrl

/-- The accumulated (unclamped) link score at classification time: the
severity reduce over the pre-HTTPS indicators, plus 30 when the scheme is
not `https:`. -/
def linkRawScore (uo : UrlObj) (inputUrl : List Char) (now : Int) (age : Nat)
    (rNew : Bool) : Nat :=
  let domain := replaceFirst "www.".toList uo.hostname
  indScoreSum (linkIndicatorsPre inputUrl domain now age rNew) +
    (if uo.protocol == "https:".toList then 0 else 30)

/-- The success branch of `analyzeLink`, given the parsed URL object. -/
def linkSuccess (uo : UrlObj) (inputUrl : List Char) (now : Int) (age : Nat)
    (rNew red : Bool) : LinkScanResult :=
  let domain := replaceFirst "www.".toList uo.hostname
  let domainAnalysis := analyzeDomain domain now age rNew
  let isHttps := uo.protocol == "https:".toList
  let allIndicators :=
    linkIndicatorsPre inputUrl domain now age rNew ++
      (if isHttps then [] else [.insecure])
  let score := linkRawScore uo inputUrl now age rNew
  let riskLevel : Risk :=
    if 60 ≤ score then .dangerous
    else if 30 ≤ score then .suspicious
    else .safe
  { url := inputUrl,
    riskLevel := riskLevel,
    score := min score 100,
    indicators := allIndicators,
    recommendations := generateRecommendations riskLevel,
    technicalDetails :=
      { domain := domain,
        registrar := domainAnalysis.registrar,
        creationDate := domainAnalysis.creationDate,
        isHttps := isHttps,
        hasRedirects := red,
        finalUrl := inputUrl,
        reputation := if score < 30 then "Good" else if score < 60 then "Unknown" else "Poor",
        blacklistStatus :=
          if 60 < score then ["PhishTank", "Google Safe Browsing"] else [] } }

/-- The `catch` branch of `analyzeLink`: the synthetic maximal-risk
result for unparsable input. -/
def linkInvalidResult (inputUrl : List Char) : LinkScanResult :=
  { url := inputUrl,
    riskLevel := .dangerous,
    score := 100,
    indicators := [.invalidUrl],
    recommendations := ["Please enter a valid URL"],
    technicalDetails :=
      { domain := "Invalid".toList,
        registrar := "Unknown",
        creationDate := none,
        isHttps := false,
        hasRedirects := false,
        finalUrl := inputUrl,
        reputation := "Unknown",
        blacklistStatus := [] } }

/-- `analyzeLink(inputUrl)`: parse the normalized URL with the browser
parser (modelled by the `parse` argument); a parse failure (the thrown
`TypeError` of `new URL`) lands in the `catch` branch, otherwise the
success branch runs.  `now`, `age`, `rNew` and `red` model `Date.now()`
and the three `Math.random()` draws. -/
def analyzeLink (parse : List Char → Option UrlObj) (now : Int) (age : Nat)
    (rNew red : Bool) (inputUrl : List Char) : LinkScanResult :=
  match parse (normalizeUrl inputUrl) with
  | some uo => linkSuccess uo inputUrl now age rNew red
  | none => linkInvalidResult inputUrl

/-! ## Helper lemmas about the analyzers -/

/-- The fixed recommendation list of each email tier (the classifier maps
the tier alone to the list; no indicator data flows into it). -/
def emailRecsFor : Risk → List String
  | .dangerous => emailDangerRecs
  | .suspicious => emailSuspRecs
  | .safe => emailSafeRecs

theorem analyzeEmail_indicators (c : List Char) :
    (analyzeEmail c).indicators =
      (emailUrlBlock c).1 ++ (emailHiddenBlock c).1 ++ (emailPatternBlock c).1 ++
        (emailGrammarBlock c).1 ++ (emailSenderBlock c).1 := rfl

theorem analyzeEmail_score (c : List Char) :
    (analyzeEmail c).score = min (emailRawScore c) 100 := rfl

theorem analyzeEmail_riskLevel (c : List Char) :
    (analyzeEmail c).riskLevel =
      (if 75 ≤ emailRawScore c then Risk.dangerous
       else if 40 ≤ emailRawScore c then Risk.suspicious else Risk.safe) := by
  unfold analyzeEmail
  by_cases h75 : 75 ≤ emailRawScore c <;> by_cases h40 : 40 ≤ emailRawScore c <;>
    simp [h75, h40]

theorem analyzeEmail_recommendations (c : List Char) :
    (analyzeEmail c).recommendations =
      (if 75 ≤ emailRawScore c then emailDangerRecs
       else if 40 ≤ emailRawScore c then emailSuspRecs else emailSafeRecs) := by
  unfold analyzeEmail
  by_cases h75 : 75 ≤ emailRawScore c <;> by_cases h40 : 40 ≤ emailRawScore c <;>
    simp [h75, h40]

theorem emailUrlBlock_nil_iff (c : List Char) :
    ((emailUrlBlock c).1 = [] ↔ (emailUrlBlock c).2 = 0) := by
  unfold emailUrlBlock
  rcases Nat.eq_zero_or_pos (urlScan c).length with h | h
  · simp [h]
  · have h15 : 0 < (urlScan c).length * 15 := Nat.mul_pos h (by norm_num)
    by_cases hs : 0 < ((urlScan c).filter suspiciousUrl).length
    · rw [if_pos h, if_pos hs]
      constructor
      · intro hcon; exact absurd hcon (by simp)
      · intro hcon; exact absurd hcon (by omega)
    · rw [if_pos h, if_neg hs]
      constructor
      · intro hcon; exact absurd hcon (by simp)
      · intro hcon; exact absurd hcon (by omega)

theorem map_nil_iff_mul_len {α β : Type} (f : α → β) (L : List α) :
    (L.map f = [] ↔ 35 * L.length = 0) := by
  cases L <;> simp

theorem emailHiddenBlock_nil_iff (c : List Char) :
    ((emailHiddenBlock c).1 = [] ↔ (emailHiddenBlock c).2 = 0) :=
  map_nil_iff_mul_len _ _

theorem patFold_nil_iff (l : List PatEntry) (c : List Char)
    (hw : ∀ e ∈ l, 0 < e.weight) :
    ((patFold l c).1 = [] ↔ (patFold l c).2 = 0) := by
  induction l with
  | nil => simp [patFold]
  | cons e es ih =>
    have he := hw e (by simp)
    have ihs := ih fun x hx => hw x (List.mem_cons_of_mem _ hx)
    simp only [patFold]
    by_cases ht : e.test c
    · simp only [ht, if_pos]
      constructor
      · intro hcon; cases hcon
      · intro hcon; omega
    · simpa [ht] using ihs

theorem emailPatternLib_weights_pos : ∀ e ∈ emailPatternLib, 0 < e.weight := by
  intro e he
  simp only [emailPatternLib, List.mem_cons, List.not_mem_nil, or_false] at he
  rcases he with rfl | rfl | rfl | rfl | rfl | rfl | rfl | rfl | rfl | rfl <;> norm_num

theorem emailPatternBlock_nil_iff (c : List Char) :
    ((emailPatternBlock c).1 = [] ↔ (emailPatternBlock c).2 = 0) :=
  patFold_nil_iff _ _ emailPatternLib_weights_pos

theorem emailGrammarBlock_nil_iff (c : List Char) :
    ((emailGrammarBlock c).1 = [] ↔ (emailGrammarBlock c).2 = 0) := by
  unfold emailGrammarBlock
  by_cases h : 0 < countGrammar c <;> simp [h] <;> omega

theorem emailSenderBlock_nil_iff (c : List Char) :
    ((emailSenderBlock c).1 = [] ↔ (emailSenderBlock c).2 = 0) := by
  unfold emailSenderBlock
  by_cases h : senderReplyMismatch c <;> simp [h]

/-! ## Claim theorems -/

/-- C1: For every input string, the `score` field returned by
`analyzeEmail` and by `analyzeLink` is a natural number (hence a
non-negative integer) bounded by 100: all detector contributions are
non-negative from a zero start and the final score is clamped with
`Math.min(score, 100)`. -/
theorem scan_scores_bounded :
    (∀ c : List Char, (analyzeEmail c).score ≤ 100) ∧
    (∀ (parse : List Char → Option UrlObj) (now : Int) (age : Nat)
      (rNew red : Bool) (u : List Char),
      (analyzeLink parse now age rNew red u).score ≤ 100) := by
  constructor
  · intro c
    rw [analyzeEmail_score]
    exact Nat.min_le_right _ _
  · intro parse now age rNew red u
    unfold analyzeLink
    cases h : parse (normalizeUrl u) with
    | some uo => exact Nat.min_le_right _ _
    | none => exact Nat.le_refl _

/-- C3: `analyzeEmail` classifies the accumulated score into exactly one
tier — `score >= 75` dangerous, `40 <= score < 75` suspicious, otherwise
safe — and the recommendation list is the fixed per-tier list (4, 4 and 3
entries respectively), a function of the tier alone. -/
theorem email_classifier_tiers (c : List Char) :
    ((analyzeEmail c).riskLevel = .dangerous ↔ 75 ≤ emailRawScore c) ∧
    ((analyzeEmail c).riskLevel = .suspicious ↔
      40 ≤ emailRawScore c ∧ emailRawScore c < 75) ∧
    ((analyzeEmail c).riskLevel = .safe ↔ emailRawScore c < 40) ∧
    (analyzeEmail c).recommendations = emailRecsFor (analyzeEmail c).riskLevel ∧
    (emailRecsFor .dangerous).length = 4 ∧
    (emailRecsFor .suspicious).length = 4 ∧
    (emailRecsFor .safe).length = 3 := by
  rw [analyzeEmail_riskLevel, analyzeEmail_recommendations]
  by_cases h75 : 75 ≤ emailRawScore c <;> by_cases h40 : 40 ≤ emailRawScore c <;>
    simp [h75, h40, emailRecsFor, emailDangerRecs, emailSuspRecs, emailSafeRecs] <;>
    omega

/-- C3 witness at a concrete input. -/
theorem email_classifier_tiers_witness :
    ((analyzeEmail "hello".toList).riskLevel = .safe ↔
      emailRawScore "hello".toList < 40) ∧
    (analyzeEmail "hello".toList).recommendations =
      emailRecsFor (analyzeEmail "hello".toList).riskLevel :=
  ⟨(email_classifier_tiers "hello".toList).2.2.1,
   (email_classifier_tiers "hello".toList).2.2.2.1⟩

/-- C10: the indicator list of `analyzeEmail` is empty exactly when the
score is zero (every push is paired with a strictly positive increment
and vice versa), and an empty indicator list forces the safe tier. -/
theorem email_indicators_iff_score (c : List Char) :
    ((analyzeEmail c).indicators = [] ↔ (analyzeEmail c).score = 0) ∧
    ((analyzeEmail c).indicators = [] → (analyzeEmail c).riskLevel = .safe) := by
  have hiff : ((analyzeEmail c).indicators = [] ↔ emailRawScore c = 0) := by
    rw [analyzeEmail_indicators]
    unfold emailRawScore
    simp only [List.append_eq_nil]
    have h1 := emailUrlBlock_nil_iff c
    have h2 := emailHiddenBlock_nil_iff c
    have h3 := emailPatternBlock_nil_iff c
    have h4 := emailGrammarBlock_nil_iff c
    have h5 := emailSenderBlock_nil_iff c
    constructor
    · rintro ⟨⟨⟨⟨a1, a2⟩, a3⟩, a4⟩, a5⟩
      rw [h1.mp a1, h2.mp a2, h3.mp a3, h4.mp a4, h5.mp a5]
    · intro hz
      exact ⟨⟨⟨⟨h1.mpr (by omega), h2.mpr (by omega)⟩, h3.mpr (by omega)⟩,
        h4.mpr (by omega)⟩, h5.mpr (by omega)⟩
  constructor
  · rw [hiff, analyzeEmail_score]
    omega
  · intro hnil
    have hz := hiff.mp hnil
    rw [analyzeEmail_riskLevel, hz]
    simp

/-- C10 witness at a concrete input (the spec's own no-match example). -/
theorem email_indicators_iff_score_witness :
    ((analyzeEmail "Meeting moved to 3pm tomorrow, see you then.".toList).indicators
        = [] ↔
      (analyzeEmail "Meeting moved to 3pm tomorrow, see you then.".toList).score = 0) ∧
    ((analyzeEmail "Meeting moved to 3pm tomorrow, see you then.".toList).indicators
        = [] →
      (analyzeEmail "Meeting moved to 3pm tomorrow, see you then.".toList).riskLevel
        = .safe) :=
  email_indicators_iff_score _

/-- The example email text cited by the specification. -/
def emailExampleC6 : List Char :=
  "URGENT: verify your account now or it will be suspended!".toList

/-- C6 counterexample: on the spec's example text the call-to-action
pattern does not fire — `verify your account` matches none of the
alternatives `verify account`/`verify identity` — so the score is 50 (not
80) and the tier is suspicious (not dangerous). -/
theorem email_example_counterexample :
    ctaTest emailExampleC6 = false ∧
    (analyzeEmail emailExampleC6).score = 50 ∧
    (analyzeEmail emailExampleC6).riskLevel = .suspicious := by
  refine ⟨by decide, by decide, by decide⟩

/-- C6 amended: the example fires exactly the urgency detector (+25) and
the account-threat detector (+25), yielding score 50 and tier suspicious
with the suspicious-tier recommendations. -/
theorem email_example_actual :
    analyzeEmail emailExampleC6 =
      { riskLevel := .suspicious, score := 50,
        indicators := [.urgency, .accountThreat],
        recommendations := emailSuspRecs } := by decide

/-- C4: `analyzeLink` never propagates a parse failure: whenever parsing
the normalized URL (the input, with `https://` prepended when it does not
start with `http`) fails, the result is the synthetic maximal-risk
record — dangerous, score 100, the single `Invalid URL format` indicator,
the single `Please enter a valid URL` recommendation, and empty/unknown
technical details.  This `match` on the parse result is the sole error
path of the (total) function. -/
theorem link_invalid_url_path (parse : List Char → Option UrlObj) (now : Int)
    (age : Nat) (rNew red : Bool) (u : List Char)
    (h : parse (normalizeUrl u) = none) :
    analyzeLink parse now age rNew red u = linkInvalidResult u ∧
    (analyzeLink parse now age rNew red u).riskLevel = .dangerous ∧
    (analyzeLink parse now age rNew red u).score = 100 ∧
    (analyzeLink parse now age rNew red u).indicators = [.invalidUrl] ∧
    (analyzeLink parse now age rNew red u).recommendations =
      ["Please enter a valid URL"] ∧
    (analyzeLink parse now age rNew red u).technicalDetails =
      { domain := "Invalid".toList, registrar := "Unknown", creationDate := none,
        isHttps := false, hasRedirects := false, finalUrl := u,
        reputation := "Unknown", blacklistStatus := [] } ∧
    (hasPrefE "http".toList u = false →
      normalizeUrl u = "https://".toList ++ u) := by
  have he : analyzeLink parse now age rNew red u = linkInvalidResult u := by
    unfold analyzeLink
    rw [h]
  refine ⟨he, ?_, ?_, ?_, ?_, ?_, ?_⟩
  · rw [he]; rfl
  · rw [he]; rfl
  · rw [he]; rfl
  · rw [he]; rfl
  · rw [he]; rfl
  · intro hp
    unfold normalizeUrl
    rw [hp]
    simp

/-- A parse oracle that always fails, as the browser parser does on
`https://not a url` (spaces are rejected by `new URL`). -/
def parseFail : List Char → Option UrlObj := fun _ => none

/-- C4 witness at the spec's malformed-input example. -/
theorem link_invalid_url_path_witness :
    analyzeLink parseFail 0 0 false false "not a url".toList =
        linkInvalidResult "not a url".toList ∧
    (analyzeLink parseFail 0 0 false false "not a url".toList).score = 100 :=
  ⟨(link_invalid_url_path parseFail 0 0 false false "not a url".toList rfl).1,
   (link_invalid_url_path parseFail 0 0 false false "not a url".toList rfl).2.2.1⟩

theorem analyzeLink_some (parse : List Char → Option UrlObj) (now : Int)
    (age : Nat) (rNew red : Bool) (u : List Char) (uo : UrlObj)
    (h : parse (normalizeUrl u) = some uo) :
    analyzeLink parse now age rNew red u = linkSuccess uo u now age rNew red := by
  unfold analyzeLink
  rw [h]

theorem linkSuccess_riskLevel (uo : UrlObj) (u : List Char) (now : Int)
    (age : Nat) (rNew red : Bool) :
    (linkSuccess uo u now age rNew red).riskLevel =
      (if 60 ≤ linkRawScore uo u now age rNew then Risk.dangerous
       else if 30 ≤ linkRawScore uo u now age rNew then Risk.suspicious
       else Risk.safe) := rfl

/-- C2: on the non-error path the risk tier is a one-shot threshold
comparison on the accumulated score: dangerous iff `score >= 60`,
suspicious iff `30 <= score < 60`, safe otherwise (so raw 60 is
dangerous, 59 and 30 suspicious, 29 safe). -/
theorem link_risk_thresholds (parse : List Char → Option UrlObj) (now : Int)
    (age : Nat) (rNew red : Bool) (u : List Char) (uo : UrlObj)
    (h : parse (normalizeUrl u) = some uo) :
    ((analyzeLink parse now age rNew red u).riskLevel = .dangerous ↔
      60 ≤ linkRawScore uo u now age rNew) ∧
    ((analyzeLink parse now age rNew red u).riskLevel = .suspicious ↔
      30 ≤ linkRawScore uo u now age rNew ∧ linkRawScore uo u now age rNew < 60) ∧
    ((analyzeLink parse now age rNew red u).riskLevel = .safe ↔
      linkRawScore uo u now age rNew < 30) := by
  rw [analyzeLink_some parse now age rNew red u uo h, linkSuccess_riskLevel]
  by_cases h60 : 60 ≤ linkRawScore uo u now age rNew <;>
    by_cases h30 : 30 ≤ linkRawScore uo u now age rNew <;>
    simp [h60, h30] <;> omega

/-- A parse oracle behaving as `new URL('https://example.com')` does on
the normalized input `https://example.com`. -/
def parseExampleCom : List Char → Option UrlObj :=
  fun _ => some ⟨"https:".toList, "example.com".toList⟩

/-- C2 witness at a concrete input (raw score 0, safe tier). -/
theorem link_risk_thresholds_witness :
    ((analyzeLink parseExampleCom 0 0 false false "example.com".toList).riskLevel
        = .safe ↔
      linkRawScore ⟨"https:".toList, "example.com".toList⟩ "example.com".toList
        0 0 false < 30) :=
  (link_risk_thresholds parseExampleCom 0 0 false false "example.com".toList
    ⟨"https:".toList, "example.com".toList⟩ rfl).2.2

/-- C5 counterexample: two runs of `analyzeLink` on the identical input
`example.com` (same browser parse result), differing only in the
`Math.random() > 0.7` draw of `analyzeDomain`, return different scores (0
vs 20) and different indicator lists — the run-to-run variance is not
confined to the `creationDate`/`hasRedirects` fields. -/
theorem link_random_run_variance :
    (analyzeLink parseExampleCom 1750000000000 5 true false
        "example.com".toList).score ≠
      (analyzeLink parseExampleCom 1750000000000 5 false false
        "example.com".toList).score ∧
    (analyzeLink parseExampleCom 1750000000000 5 true false
        "example.com".toList).indicators ≠
      (analyzeLink parseExampleCom 1750000000000 5 false false
        "example.com".toList).indicators := by
  refine ⟨by decide, by decide⟩

theorem indScoreSum_append (a b : List LinkIndicator) :
    indScoreSum (a ++ b) = indScoreSum a + indScoreSum b := by
  simp [indScoreSum]

/-- C5 amended: the email analyzer is a pure function of its input; the
link analyzer is a pure function of its input and the three random draws,
and the `analyzeDomain` draw changes more than `creationDate`: when it
fires (and the synthetic date passes the 30-day check) it adds the
newly-registered indicator and exactly 20 score points, while the
`hasRedirects` draw changes neither score nor indicators. -/
theorem link_randomness_decomposition (uo : UrlObj) (u : List Char) (now : Int)
    (age : Nat) (rNew red red2 : Bool) :
    (analyzeEmail u = analyzeEmail u) ∧
    linkRawScore uo u now age true =
      linkRawScore uo u now age false +
        (if now - 30 * dayMs < isoDayStart (now - (age : Int) * dayMs)
         then 20 else 0) ∧
    (linkSuccess uo u now age rNew red).score =
      (linkSuccess uo u now age rNew red2).score ∧
    (linkSuccess uo u now age rNew red).indicators =
      (linkSuccess uo u now age rNew red2).indicators ∧
    (linkSuccess uo u now age rNew red).technicalDetails.hasRedirects = red := by
  refine ⟨rfl, ?_, rfl, rfl, rfl⟩
  unfold linkRawScore linkIndicatorsPre analyzeDomain
  by_cases hcond : now - 30 * dayMs < isoDayStart (now - (age : Int) * dayMs) <;>
    by_cases htld : suspiciousTLDs.any fun tld =>
      endsList tld.toList (replaceFirst "www.".toList uo.hostname) <;>
    simp [hcond, htld, indScoreSum_append, indScoreSum, sevOf, sevScore] <;>
    ring

/-- A parse oracle behaving as `new URL('https://wwwww.com')` does on the
normalized input `https://wwwww.com` (hostname `wwwww.com`). -/
def parseWwwwwCom : List Char → Option UrlObj :=
  fun _ => some ⟨"https:".toList, "wwwww.com".toList⟩

/-- C9 counterexample: the code computes the domain with
`hostname.replace('www.', '')`, which removes the *first occurrence* of
`www.` anywhere, not only a leading prefix: the hostname `wwwww.com` does
not start with `www.` yet its reported domain is `wwcom`, not
`wwwww.com`. -/
theorem link_domain_www_counterexample :
    hasPrefE "www.".toList "wwwww.com".toList = false ∧
    (analyzeLink parseWwwwwCom 0 0 false false
        "wwwww.com".toList).technicalDetails.domain = "wwcom".toList ∧
    (analyzeLink parseWwwwwCom 0 0 false false
        "wwwww.com".toList).technicalDetails.domain ≠ "wwwww.com".toList := by
  refine ⟨by decide, by decide, by decide⟩

/-- Recognizer of the suspicious-TLD indicator. -/
def isTLDInd : LinkIndicator → Bool
  | .suspTLD _ => true
  | _ => false

theorem analyzeUrlStructure_no_tld (u : List Char) :
    (analyzeUrlStructure u).any isTLDInd = false := by
  unfold analyzeUrlStructure
  by_cases h1 : u.contains '@' <;> by_cases h2 : ipLinkTest u <;>
    by_cases h3 : (3 : Int) < (u.count '.' : Int) + 1 - 2 <;>
    simp [h1, h2, h3, isTLDInd]

theorem analyzeContentPatterns_no_tld (u : List Char) :
    (analyzeContentPatterns u).any isTLDInd = false := by
  unfold analyzeContentPatterns
  by_cases h1 : occursAnyCI ["login", "signin", "auth"] u <;>
    by_cases h2 : occursAnyCI ["bank", "paypal", "amazon", "ebay"] u <;>
    by_cases h3 : occursAnyCI ["update", "verify", "security"] u <;>
    by_cases h4 : occursAnyCI ["account", "profile", "settings"] u <;>
    simp [h1, h2, h3, h4, isTLDInd]

theorem analyzeDomain_any_tld (d : List Char) (now : Int) (age : Nat)
    (rNew : Bool) :
    (analyzeDomain d now age rNew).indicators.any isTLDInd =
      (suspiciousTLDs.any fun tld => endsList tld.toList d) := by
  unfold analyzeDomain
  simp only [List.any_append]
  have hnew : (if (match (if rNew then
      some (isoDayStart (now - (age : Int) * dayMs)) else none) with
      | some ts => decide (now - 30 * dayMs < ts)
      | none => false) = true then [LinkIndicator.newDomain] else []).any isTLDInd
      = false := by
    split <;> simp [isTLDInd]
  rw [hnew]
  cases hb : (suspiciousTLDs.any fun tld => endsList tld.toList d) <;>
    simp [hb, isTLDInd]

/-- C9 amended: on the non-error path the reported domain is the parsed
hostname with the *first occurrence* of `www.` removed (so a leading
`www.` is stripped, but hostnames merely containing `www.` are altered
too), and a suspicious-TLD indicator is present in the result exactly
when that computed domain ends with one of `.tk`, `.ml`, `.ga`, `.cf`,
`.gq`, `.xyz`. -/
theorem link_domain_and_tld (parse : List Char → Option UrlObj) (now : Int)
    (age : Nat) (rNew red : Bool) (u : List Char) (uo : UrlObj)
    (h : parse (normalizeUrl u) = some uo) :
    (analyzeLink parse now age rNew red u).technicalDetails.domain =
      replaceFirst "www.".toList uo.hostname ∧
    (analyzeLink parse now age rNew red u).indicators.any isTLDInd =
      (suspiciousTLDs.any fun tld =>
        endsList tld.toList (replaceFirst "www.".toList uo.hostname)) := by
  rw [analyzeLink_some parse now age rNew red u uo h]
  constructor
  · rfl
  · show (linkIndicatorsPre u (replaceFirst "www.".toList uo.hostname) now age rNew ++
      (if uo.protocol == "https:".toList then ([] : List LinkIndicator)
       else [.insecure])).any isTLDInd = _
    have hins : (if uo.protocol == "https:".toList then ([] : List LinkIndicator)
        else [.insecure]).any isTLDInd = false := by
      split <;> simp [isTLDInd]
    unfold linkIndicatorsPre
    rw [List.any_append, List.any_append, List.any_append, hins,
      analyzeUrlStructure_no_tld, analyzeContentPatterns_no_tld,
      analyzeDomain_any_tld]
    simp

/-- C9 amended witness at a concrete input. -/
theorem link_domain_and_tld_witness :
    (analyzeLink parseWwwwwCom 0 0 false false
        "wwwww.com".toList).technicalDetails.domain =
      replaceFirst "www.".toList "wwwww.com".toList ∧
    (analyzeLink parseWwwwwCom 0 0 false false
        "wwwww.com".toList).indicators.any isTLDInd =
      (suspiciousTLDs.any fun tld =>
        endsList tld.toList (replaceFirst "www.".toList "wwwww.com".toList)) :=
  link_domain_and_tld parseWwwwwCom 0 0 false false "wwwww.com".toList
    ⟨"https:".toList, "wwwww.com".toList⟩ rfl

/-! ## Monotonicity lemmas for the substring-existence detectors (C7) -/

theorem digitsHoursTail_append {s t : List Char}
    (h : digitsHoursTail s = true) : digitsHoursTail (s ++ t) = true := by
  induction s with
  | nil => simp [digitsHoursTail] at h
  | cons c cs ih =>
    simp only [digitsHoursTail, Bool.or_eq_true, Bool.and_eq_true,
      List.cons_append] at h ⊢
    rcases h with h | ⟨hd, hr⟩
    · exact Or.inl (by simpa [List.cons_append] using hasPrefCI_append (t := t) h)
    · exact Or.inr ⟨hd, ih hr⟩

theorem digitsHours_append {s t : List Char} (h : digitsHours s = true) :
    digitsHours (s ++ t) = true := by
  cases s with
  | nil => simp [digitsHours] at h
  | cons c cs =>
    simp only [digitsHours, Bool.and_eq_true, List.cons_append] at h ⊢
    exact ⟨h.1, digitsHoursTail_append h.2⟩

theorem withinHoursTest_append {s t : List Char}
    (h : withinHoursTest s = true) : withinHoursTest (s ++ t) = true := by
  induction s with
  | nil => simp [withinHoursTest] at h
  | cons c cs ih =>
    simp only [withinHoursTest, Bool.or_eq_true, Bool.and_eq_true,
      List.cons_append] at h ⊢
    rcases h with ⟨hp, hd⟩ | h
    · refine Or.inl ⟨by simpa [List.cons_append] using hasPrefCI_append (t := t) hp, ?_⟩
      have hlen : 7 ≤ (c :: cs).length := by
        simpa using hasPrefCI_length hp
      have hdrop : ((c :: cs) ++ t).drop 7 = (c :: cs).drop 7 ++ t :=
        drop_append_of_le hlen
      simpa [List.cons_append] using hdrop ▸ digitsHours_append hd
    · exact Or.inr (ih h)

theorem urgencyTest_append {s t : List Char} (h : urgencyTest s = true) :
    urgencyTest (s ++ t) = true := by
  simp only [urgencyTest, Bool.or_eq_true] at h ⊢
  rcases h with h | h
  · exact Or.inl (occursAnyCI_append h)
  · exact Or.inr (withinHoursTest_append h)

theorem ctaTest_append {s t : List Char} (h : ctaTest s = true) :
    ctaTest (s ++ t) = true := occursAnyCI_append h

theorem prizeTest_append {s t : List Char} (h : prizeTest s = true) :
    prizeTest (s ++ t) = true := by
  simp only [prizeTest, Bool.or_eq_true] at h ⊢
  rcases h with h | h
  · exact Or.inl (occursAnyCI_append h)
  · exact Or.inr (occursCI_append h)

theorem threatTest_append {s t : List Char} (h : threatTest s = true) :
    threatTest (s ++ t) = true := occursAnyCI_append h

theorem financeTest_append {s t : List Char} (h : financeTest s = true) :
    financeTest (s ++ t) = true := occursAnyCI_append h

theorem greetingTest_append {s t : List Char} (h : greetingTest s = true) :
    greetingTest (s ++ t) = true := occursAnyCI_append h

theorem sameLineFind_append {b s t : List Char}
    (h : sameLineFind b s = true) : sameLineFind b (s ++ t) = true := by
  induction s with
  | nil => simp [sameLineFind] at h
  | cons c cs ih =>
    simp only [sameLineFind, Bool.or_eq_true, Bool.and_eq_true,
      List.cons_append] at h ⊢
    rcases h with h | ⟨hd, hr⟩
    · exact Or.inl (by simpa [List.cons_append] using hasPrefCI_append (t := t) h)
    · exact Or.inr ⟨hd, ih hr⟩

theorem atThenSameLine_append {a b s t : List Char}
    (h : atThenSameLine a b s = true) : atThenSameLine a b (s ++ t) = true := by
  induction s with
  | nil => simp [atThenSameLine] at h
  | cons c cs ih =>
    simp only [atThenSameLine, Bool.or_eq_true, Bool.and_eq_true,
      List.cons_append] at h ⊢
    rcases h with ⟨hp, hf⟩ | h
    · refine Or.inl ⟨by simpa [List.cons_append] using hasPrefCI_append (t := t) hp, ?_⟩
      have hlen : a.length ≤ (c :: cs).length := hasPrefCI_length hp
      have hdrop : ((c :: cs) ++ t).drop a.length = (c :: cs).drop a.length ++ t :=
        drop_append_of_le hlen
      simpa [List.cons_append] using hdrop ▸ sameLineFind_append hf
    · exact Or.inr (ih h)

theorem senderTest_append {s t : List Char} (h : senderTest s = true) :
    senderTest (s ++ t) = true := by
  simp only [senderTest, Bool.or_eq_true] at h ⊢
  rcases h with h | h
  · exact Or.inl (atThenSameLine_append h)
  · exact Or.inr (atThenSameLine_append h)

theorem dkdot_append {k : Nat} {s r t : List Char}
    (h : dkdot k s = some r) : dkdot k (s ++ t) = some (r ++ t) := by
  induction k generalizing s with
  | zero =>
    cases s with
    | nil => simp [dkdot] at h
    | cons c cs =>
      by_cases hc : c == '.'
      · have hdot : c = '.' := by simpa using hc
        subst hdot
        simp [dkdot] at h ⊢
        simp [h]
      · have : c ≠ '.' := by simpa using hc
        cases c
        simp_all [dkdot]
  | succ k ih =>
    cases s with
    | nil => simp [dkdot] at h
    | cons c cs =>
      simp only [dkdot, List.cons_append] at h ⊢
      by_cases hd : isDigitC c
      · rw [if_pos hd] at h ⊢
        exact ih h
      · rw [if_neg hd] at h
        cases h

theorem ipChain_append {k1 k2 k3 : Nat} {s r t : List Char}
    (h : ipChain k1 k2 k3 s = some r) :
    ipChain k1 k2 k3 (s ++ t) = some (r ++ t) := by
  cases h1 : dkdot k1 s with
  | none => simp [ipChain, h1] at h
  | some r1 =>
    cases h2 : dkdot k2 r1 with
    | none => simp [ipChain, h1, h2] at h
    | some r2 =>
      have h3 : dkdot k3 r2 = some r := by simpa [ipChain, h1, h2] using h
      simp [ipChain, dkdot_append h1, dkdot_append h2, dkdot_append h3]

theorem ipAtE_append {s t : List Char} (h : ipAtE s = true) :
    ipAtE (s ++ t) = true := by
  simp only [ipAtE, List.any_eq_true] at h ⊢
  obtain ⟨k1, hk1, k2, hk2, k3, hk3, hm⟩ := h
  refine ⟨k1, hk1, k2, hk2, k3, hk3, ?_⟩
  cases hc : ipChain k1 k2 k3 s with
  | none => rw [hc] at hm; simp at hm
  | some r3 =>
    rw [hc] at hm
    rw [ipChain_append hc]
    cases r3 with
    | nil => simp at hm
    | cons d ds => simpa using hm

theorem ipTextTest_append {s t : List Char} (h : ipTextTest s = true) :
    ipTextTest (s ++ t) = true := by
  induction s with
  | nil => simp [ipTextTest] at h
  | cons c cs ih =>
    simp only [ipTextTest, Bool.or_eq_true, List.cons_append] at h ⊢
    rcases h with h | h
    · exact Or.inl (by simpa [List.cons_append] using ipAtE_append (t := t) h)
    · exact Or.inr (ih h)

theorem urlShapeTest_append {s t : List Char} (h : urlShapeTest s = true) :
    urlShapeTest (s ++ t) = true := by
  induction s with
  | nil => simp [urlShapeTest] at h
  | cons a s1 ih =>
    cases s1 with
    | nil => simp [urlShapeTest] at h
    | cons b rest =>
      simp only [urlShapeTest, Bool.or_eq_true, Bool.and_eq_true,
        List.cons_append] at h ⊢
      rcases h with h | h
      · exact Or.inl h
      · exact Or.inr (by simpa [List.cons_append] using ih h)

/-- The pattern library without the word-boundary-sensitive
spoofed-domain detector. -/
def emailPatternLibNoSpoof : List PatEntry :=
  emailPatternLib.filter fun e => e.ind != EmailIndicator.spoofedDomain

theorem patFold_score_mono (l : List PatEntry) (s t : List Char)
    (h : ∀ e ∈ l, e.test s = true → e.test (s ++ t) = true) :
    (patFold l s).2 ≤ (patFold l (s ++ t)).2 := by
  induction l with
  | nil => simp [patFold]
  | cons e es ih =>
    have he := h e (by simp)
    have ihs := ih fun x hx => h x (List.mem_cons_of_mem _ hx)
    simp only [patFold]
    by_cases hs : e.test s
    · rw [if_pos hs, if_pos (he hs)]
      exact Nat.add_le_add_left ihs _
    · rw [if_neg hs]
      by_cases hq : e.test (s ++ t)
      · rw [if_pos hq]
        exact Nat.le_trans ihs (Nat.le_add_left _ _)
      · rw [if_neg hq]
        exact ihs

/-- C7 counterexample: appending lottery-scam language (the claim's own
example of a trigger phrase) to the already-flagged email text
`scansafe-a.com` strictly decreases the score (50 → 20): the appended
word destroys the final word boundary of the spoofed-domain match. -/
theorem email_monotonicity_counterexample :
    (analyzeEmail "scansafe-a.com".toList).score = 50 ∧
    prizeTest ("scansafe-a.com".toList ++ "lottery".toList) = true ∧
    (analyzeEmail ("scansafe-a.com".toList ++ "lottery".toList)).score = 20 ∧
    (analyzeEmail ("scansafe-a.com".toList ++ "lottery".toList)).score <
      (analyzeEmail "scansafe-a.com".toList).score := by
  refine ⟨by decide, by decide, by decide, by decide⟩

/-- C7 amended: appending text never unmatches any of the nine
substring-existence detectors of the pattern library, so their summed
score contribution is monotone under appending; full-score monotonicity
fails only through the word-boundary-sensitive detectors (the
spoofed-domain pattern, and the misspelling counter), as the
counterexample shows. -/
theorem email_substring_patterns_monotone (s t : List Char) :
    (patFold emailPatternLibNoSpoof s).2 ≤
      (patFold emailPatternLibNoSpoof (s ++ t)).2 := by
  apply patFold_score_mono
  intro e he
  have hlist : emailPatternLibNoSpoof =
      [⟨urgencyTest, .urgency, 25⟩,
       ⟨ctaTest, .callToAction, 30⟩,
       ⟨prizeTest, .prizeScam, 20⟩,
       ⟨threatTest, .accountThreat, 25⟩,
       ⟨financeTest, .financialScam, 20⟩,
       ⟨greetingTest, .genericGreeting, 15⟩,
       ⟨senderTest, .suspiciousSender, 40⟩,
       ⟨ipTextTest, .ipMentioned, 20⟩,
       ⟨urlShapeTest, .urlMismatch, 30⟩] := rfl
  rw [hlist] at he
  simp only [List.mem_cons, List.not_mem_nil, or_false] at he
  rcases he with rfl | rfl | rfl | rfl | rfl | rfl | rfl | rfl | rfl <;>
    intro hs <;>
    first
    | exact urgencyTest_append hs
    | exact ctaTest_append hs
    | exact prizeTest_append hs
    | exact threatTest_append hs
    | exact financeTest_append hs
    | exact greetingTest_append hs
    | exact senderTest_append hs
    | exact ipTextTest_append hs
    | exact urlShapeTest_append hs

/-! ## Bridging the URL extraction scan and pattern 10 (C8) -/

theorem orElse_eq_some_cases {α : Type} {a : Option α} {f : Unit → Option α}
    {x : α} (h : a.orElse f = some x) :
    a = some x ∨ (a = none ∧ f () = some x) := by
  cases a <;> simp_all [Option.orElse]

theorem orElse_eq_none_parts {α : Type} {a : Option α} {f : Unit → Option α}
    (h : a.orElse f = none) : a = none ∧ f () = none := by
  cases a <;> simp_all [Option.orElse]

theorem urlShapeTest_cons {c : Char} {cs : List Char}
    (h : urlShapeTest cs = true) : urlShapeTest (c :: cs) = true := by
  cases cs with
  | nil => simp [urlShapeTest] at h
  | cons d ds =>
    simp only [urlShapeTest, Bool.or_eq_true]
    exact Or.inr h

theorem urlShapeTest_of_drop {n : Nat} {s : List Char}
    (h : urlShapeTest (s.drop n) = true) : urlShapeTest s = true := by
  induction n generalizing s with
  | zero => simpa using h
  | succ m ih =>
    cases s with
    | nil => simp [urlShapeTest] at h
    | cons c cs =>
      simp only [List.drop_succ_cons] at h
      exact urlShapeTest_cons (ih h)

theorem coreShape {q : List Char} (hrun : q.takeWhile nonSlashWs ≠ [])
    (hdrop : ∃ r2, q.drop (q.takeWhile nonSlashWs).length = '/' :: r2) :
    urlShapeTest q = true := by
  induction q with
  | nil => simp at hrun
  | cons c cs ih =>
    have hc : nonSlashWs c = true := by
      cases hcv : nonSlashWs c
      · exfalso
        apply hrun
        simp [List.takeWhile_cons, hcv]
      · rfl
    rw [List.takeWhile_cons, if_pos hc] at hrun hdrop
    simp only [List.length_cons, List.drop_succ_cons] at hdrop
    cases htw : cs.takeWhile nonSlashWs with
    | nil =>
      rw [htw] at hdrop
      obtain ⟨r2, hr2⟩ := hdrop
      simp only [List.length_nil, List.drop_zero] at hr2
      subst hr2
      simp only [urlShapeTest, Bool.or_eq_true]
      refine Or.inl ?_
      show (nonSlashWs c && ('/' == '/')) = true
      simp [hc]
    | cons d ds =>
      have hcs : urlShapeTest cs = true := by
        apply ih
        · rw [htw]; simp
        · rw [htw] at hdrop ⊢
          exact hdrop
      exact urlShapeTest_cons hcs

theorem tryCore_shape {p : Nat} {s : List Char} {len : Nat}
    (h : tryCore p s = some len) : urlShapeTest s = true := by
  unfold tryCore at h
  split at h
  · cases h
  · rename_i hrun
    split at h
    · rename_i r2 hr2
      apply urlShapeTest_of_drop (n := p)
      apply coreShape
      · simpa [List.isEmpty_iff] using hrun
      · exact ⟨r2, hr2⟩
    · cases h

theorem tryWww_shape {n : Nat} {s : List Char} {len : Nat}
    (h : tryWww n s = some len) : urlShapeTest s = true := by
  unfold tryWww at h
  rcases orElse_eq_some_cases h with h1 | ⟨_, h1⟩
  · split at h1
    · exact tryCore_shape h1
    · cases h1
  · exact tryCore_shape h1

theorem matchUrlAt_shape {s : List Char} {len : Nat}
    (h : matchUrlAt s = some len) : urlShapeTest s = true := by
  unfold matchUrlAt at h
  rcases orElse_eq_some_cases h with h1 | ⟨_, h1⟩
  · split at h1
    · exact tryWww_shape h1
    · cases h1
  · rcases orElse_eq_some_cases h1 with h2 | ⟨_, h2⟩
    · split at h2
      · exact tryWww_shape h2
      · cases h2
    · exact tryWww_shape h2

theorem matchUrlAt_none_head {a : Char} {rest : List Char}
    (h : matchUrlAt (a :: rest) = none) :
    ¬(nonSlashWs a = true ∧ rest.head? = some '/') := by
  rintro ⟨ha, hr⟩
  cases rest with
  | nil => simp at hr
  | cons b r =>
    have hb : b = '/' := by simpa using hr
    subst hb
    unfold matchUrlAt at h
    have h1 := (orElse_eq_none_parts h).2
    have h2 := (orElse_eq_none_parts h1).2
    unfold tryWww at h2
    have h3 := (orElse_eq_none_parts h2).2
    have hslash : nonSlashWs '/' = false := by decide
    simp [tryCore, List.takeWhile_cons, ha, hslash] at h3

theorem urlScanAux_nil_of_nil (fuel : Nat) : urlScanAux fuel [] = [] := by
  cases fuel <;> rfl

theorem urlScanAux_ne_nil_iff (fuel : Nat) (s : List Char)
    (h : s.length < fuel) :
    (urlScanAux fuel s ≠ [] ↔ urlShapeTest s = true) := by
  induction fuel generalizing s with
  | zero => omega
  | succ fuel ih =>
    cases s with
    | nil => simp [urlScanAux, urlShapeTest]
    | cons c cs =>
      cases hm : matchUrlAt (c :: cs) with
      | some len =>
        simp only [urlScanAux, hm]
        simp [matchUrlAt_shape hm]
      | none =>
        simp only [urlScanAux, hm]
        have hlen : cs.length < fuel := by
          simp only [List.length_cons] at h
          omega
        have hcs := ih cs hlen
        cases cs with
        | nil =>
          rw [urlScanAux_nil_of_nil]
          simp [urlShapeTest]
        | cons d ds =>
          have hpair := matchUrlAt_none_head hm
          have hfalse : (!isWs c && c != '/' && d == '/') = false := by
            cases hcnd : (!isWs c && c != '/' && d == '/')
            · rfl
            · exfalso
              apply hpair
              have hcnd' : (nonSlashWs c && (d == '/')) = true := hcnd
              have h1 : nonSlashWs c = true ∧ d = '/' := by
                simpa using hcnd'
              exact ⟨h1.1, by simp [List.head?_cons, h1.2]⟩
          show (urlScanAux fuel (d :: ds) ≠ [] ↔ urlShapeTest (c :: d :: ds) = true)
          simp only [urlShapeTest, hfalse, Bool.false_or]
          exact hcs

theorem urlScan_ne_nil_iff (s : List Char) :
    (urlScan s ≠ [] ↔ urlShapeTest s = true) :=
  urlScanAux_ne_nil_iff (s.length + 1) s (Nat.lt_succ_self _)

theorem patFold_mem {l : List PatEntry} {c : List Char} {e : PatEntry}
    (he : e ∈ l) (ht : e.test c = true) : e.ind ∈ (patFold l c).1 := by
  induction l with
  | nil => cases he
  | cons f fs ih =>
    rcases List.mem_cons.mp he with rfl | hm
    · simp [patFold, ht]
    · simp only [patFold]
      by_cases hf : f.test c
      · rw [if_pos hf]
        exact List.mem_cons_of_mem _ (ih hm)
      · rw [if_neg hf]
        exact ih hm

theorem patFold_weight_le {l : List PatEntry} {c : List Char} {e : PatEntry}
    (he : e ∈ l) (ht : e.test c = true) : e.weight ≤ (patFold l c).2 := by
  induction l with
  | nil => cases he
  | cons f fs ih =>
    rcases List.mem_cons.mp he with rfl | hm
    · simp only [patFold, ht, if_pos]
      exact Nat.le_add_right _ _
    · simp only [patFold]
      by_cases hf : f.test c
      · rw [if_pos hf]
        exact Nat.le_trans (ih hm) (Nat.le_add_left _ _)
      · rw [if_neg hf]
        exact ih hm

/-- C8: the pattern-library entry `URL with potential domain mismatch`
tests the very same regular expression that the link-extraction step
scans with (`urlShapeTest`/`urlScan` here), so the two fire together:
whenever extraction finds at least one URL the result carries both the
link-count indicator and the pattern indicator, and the raw score
includes both the `15` per link and the pattern's fixed `+30` — the same
signal is scored twice under two different messages. -/
theorem email_url_double_counting (s : List Char) (h : urlScan s ≠ []) :
    urlShapeTest s = true ∧
    EmailIndicator.links (urlScan s).length ∈ (analyzeEmail s).indicators ∧
    EmailIndicator.urlMismatch ∈ (analyzeEmail s).indicators ∧
    15 * (urlScan s).length + 30 ≤ emailRawScore s := by
  have hshape : urlShapeTest s = true := (urlScan_ne_nil_iff s).mp h
  have hlen : 0 < (urlScan s).length := List.length_pos.mpr h
  have hurl : EmailIndicator.links (urlScan s).length ∈ (emailUrlBlock s).1 ∧
      15 * (urlScan s).length ≤ (emailUrlBlock s).2 := by
    unfold emailUrlBlock
    rw [if_pos hlen]
    by_cases hs : 0 < ((urlScan s).filter suspiciousUrl).length
    · rw [if_pos hs]
      exact ⟨by simp, by omega⟩
    · rw [if_neg hs]
      exact ⟨by simp, by omega⟩
  have hentry : (⟨urlShapeTest, EmailIndicator.urlMismatch, 30⟩ : PatEntry) ∈
      emailPatternLib := by
    unfold emailPatternLib
    simp
  have hmem : EmailIndicator.urlMismatch ∈ (emailPatternBlock s).1 :=
    patFold_mem hentry hshape
  have hw : 30 ≤ (emailPatternBlock s).2 := patFold_weight_le hentry hshape
  refine ⟨hshape, ?_, ?_, ?_⟩
  · rw [analyzeEmail_indicators]
    exact List.mem_append_left _ (List.mem_append_left _
      (List.mem_append_left _ (List.mem_append_left _ hurl.1)))
  · rw [analyzeEmail_indicators]
    exact List.mem_append_left _ (List.mem_append_left _
      (List.mem_append_right _ hmem))
  · have h1 := hurl.2
    unfold emailRawScore
    omega

/-- C8 witness at a concrete input containing one URL. -/
theorem email_url_double_counting_witness :
    urlShapeTest "example.com/a".toList = true ∧
    EmailIndicator.links (urlScan "example.com/a".toList).length ∈
      (analyzeEmail "example.com/a".toList).indicators ∧
    EmailIndicator.urlMismatch ∈ (analyzeEmail "example.com/a".toList).indicators ∧
    15 * (urlScan "example.com/a".toList).length + 30 ≤
      emailRawScore "example.com/a".toList :=
  email_url_double_counting "example.com/a".toList (by decide)
